import Mathlib

/-!  Verification of the bootstrap chain sync wire codec of
     src/xelis_daemon/src/p2p/packet/bootstrap_chain.rs.

     The packet file itself is embedded directly from the source.  The codec
     primitives it relies on (Reader, Writer, Option / IndexSet / Vec
     serializers, Hash, PublicKey, VarUint, BlockId, CommonPoint,
     AssetWithData, CiphertextCache, BalanceType, and the config constant
     CHAIN_SYNC_REQUEST_MAX_BLOCKS) live in xelis_common / config, which is
     not part of the sources; those are modelled from the specification
     (sections 3 and 4.1) and are marked as such in their doc comments.

     Bytes are modelled as natural numbers; a well-formed byte is < 256.
     A reader is a function from the byte stream (List Nat) to a result
     carrying the decoded value and the remaining stream, or an error. -/

namespace BootstrapSync

/-- Reader errors of the codec (spec section 4.1 error kinds). -/
inductive ReaderError where
  | InvalidValue
  | UnexpectedEof
  deriving DecidableEq

/-- Result of running a reader on a byte stream: a decoded value together
with the remaining stream, or an error. -/
inductive RResult (α : Type) where
  | ok (val : α) (rest : List Nat)
  | err (e : ReaderError)
  deriving DecidableEq

/-- Modelled from the spec: big-endian base-256 value of a byte list
(section 6, all multi-byte integers big-endian). -/
def bytesToNat (l : List Nat) : Nat :=
  l.foldl (fun a b => 256 * a + b) 0

/-- Modelled from the spec: the n-byte big-endian encoding of a value. -/
def natToBytesBE : Nat → Nat → List Nat
  | 0, _ => []
  | n + 1, v => natToBytesBE n (v / 256) ++ [v % 256]

/-- Modelled from the spec: read a single u8. -/
def readU8 : List Nat → RResult Nat
  | [] => .err .UnexpectedEof
  | b :: rest => .ok b rest

/-- Modelled from the spec: read a fixed number of raw bytes. -/
def readBytes (n : Nat) (s : List Nat) : RResult (List Nat) :=
  if n ≤ s.length then .ok (s.take n) (s.drop n) else .err .UnexpectedEof

/-- Modelled from the spec: fixed-width big-endian u64 (section 4.1). -/
def readU64 (s : List Nat) : RResult Nat :=
  match readBytes 8 s with
  | .ok bs rest => .ok (bytesToNat bs) rest
  | .err e => .err e

/-- Modelled from the spec: fixed-width big-endian u32 length field
(section 4.1, collection length prefixes). -/
def readU32 (s : List Nat) : RResult Nat :=
  match readBytes 4 s with
  | .ok bs rest => .ok (bytesToNat bs) rest
  | .err e => .err e

def writeU64 (v : Nat) : List Nat := natToBytesBE 8 v

def writeU32 (v : Nat) : List Nat := natToBytesBE 4 v

/-- Modelled from the spec: Option codec, one tag byte, 0 = absent and
1 = present followed by the payload; any other tag byte is out of range
(section 4.1). -/
def readOptionWith (rd : List Nat → RResult α) (s : List Nat) :
    RResult (Option α) :=
  match readU8 s with
  | .ok 0 rest => .ok none rest
  | .ok 1 rest =>
    match rd rest with
    | .ok v r => .ok (some v) r
    | .err e => .err e
  | .ok _ _ => .err .InvalidValue
  | .err e => .err e

def writeOptionWith (wr : α → List Nat) : Option α → List Nat
  | none => [0]
  | some v => 1 :: wr v

/-- Modelled from the spec: size in bytes of an encoded optional value. -/
def optionSizeWith (sz : α → Nat) : Option α → Nat
  | none => 1
  | some v => 1 + sz v

/-- Modelled from the spec: read a fixed count of items of a sequence
(section 4.1, sequences permit duplicates). -/
def readList (rd : List Nat → RResult α) : Nat → List Nat → RResult (List α)
  | 0, s => .ok [] s
  | n + 1, s =>
    match rd s with
    | .ok x s' =>
      match readList rd n s' with
      | .ok xs s'' => .ok (x :: xs) s''
      | .err e => .err e
    | .err e => .err e

/-- Modelled from the spec: read a fixed count of items into an
ordered-unique set, rejecting a repeated item; `key` realises the type's
notion of equality (sections 3 and 4.1). -/
def readSetItems (rd : List Nat → RResult α) (key : α → List Nat) :
    Nat → List α → List Nat → RResult (List α)
  | 0, acc, s => .ok acc s
  | n + 1, acc, s =>
    match rd s with
    | .ok x s' =>
      if key x ∈ acc.map key then .err .InvalidValue
      else readSetItems rd key n (acc ++ [x]) s'
    | .err e => .err e

/-- Modelled from the spec: ordered-unique set codec with u32 length
prefix (section 4.1). -/
def readSetU32 (rd : List Nat → RResult α) (key : α → List Nat)
    (s : List Nat) : RResult (List α) :=
  match readU32 s with
  | .ok n s' => readSetItems rd key n [] s'
  | .err e => .err e

/-- Modelled from the spec: sequence codec with u32 length prefix
(section 4.1). -/
def readListU32 (rd : List Nat → RResult α) (s : List Nat) :
    RResult (List α) :=
  match readU32 s with
  | .ok n s' => readList rd n s'
  | .err e => .err e

/-- Serialize a list of items back to back. -/
def writeItems (wr : α → List Nat) : List α → List Nat
  | [] => []
  | x :: xs => wr x ++ writeItems wr xs

def writeSetU32 (wr : α → List Nat) (l : List α) : List Nat :=
  writeU32 l.length ++ writeItems wr l

def writeListU32 (wr : α → List Nat) (l : List α) : List Nat :=
  writeU32 l.length ++ writeItems wr l

/-- Modelled from the spec: minimal base-256 digits of a value, most
significant digit first, empty for zero (section 4.1, VarUint shortest
encoding). -/
def natToMinBytes (v : Nat) : List Nat :=
  if h : v = 0 then []
  else natToMinBytes (v / 256) ++ [v % 256]
termination_by v
decreasing_by exact Nat.div_lt_self (Nat.pos_of_ne_zero h) (by decide)

/-- Modelled from the spec: VarUint, a length byte followed by the minimal
big-endian bytes; a leading-zero (non-minimal) form is rejected
(section 4.1). -/
def readVarUint (s : List Nat) : RResult Nat :=
  match readU8 s with
  | .ok n rest =>
    match readBytes n rest with
    | .ok bs r =>
      if bs.head? = some 0 then .err .InvalidValue else .ok (bytesToNat bs) r
    | .err e => .err e
  | .err e => .err e

def writeVarUint (v : Nat) : List Nat :=
  (natToMinBytes v).length :: natToMinBytes v

/-- Modelled from the spec: exact encoded byte count of a VarUint. -/
def varUintSize (v : Nat) : Nat := 1 + (natToMinBytes v).length

/-- Modelled from the spec: fixed-width opaque digest, 32 bytes, canonical
byte order (section 3). -/
def HASH_SIZE : Nat := 32

abbrev Hash := List Nat

def readHash (s : List Nat) : RResult Hash := readBytes HASH_SIZE s

def writeHash (h : Hash) : List Nat := h

/-- Modelled from the spec: fixed-width cryptographic identity, orderable
and hashable by content (section 3); width fixed at 32 bytes. -/
def KEY_SIZE : Nat := 32

abbrev PublicKey := List Nat

def readKey (s : List Nat) : RResult PublicKey := readBytes KEY_SIZE s

def writeKey (k : PublicKey) : List Nat := k

/-- Modelled from the spec: opaque encrypted balance ciphertext blob,
treated as a fixed-width opaque byte container (section 3); width fixed
at 64 bytes. -/
def CIPHERTEXT_SIZE : Nat := 64

abbrev Ciphertext := List Nat

def readCiphertext (s : List Nat) : RResult Ciphertext :=
  readBytes CIPHERTEXT_SIZE s

/-- Modelled from the spec: tag distinguishing input-balance,
output-balance and combined entries (section 3), one byte on the wire. -/
inductive BalanceType where
  | Input
  | Output
  | Both
  deriving DecidableEq

def readBalanceType (s : List Nat) : RResult BalanceType :=
  match readU8 s with
  | .ok 0 rest => .ok .Input rest
  | .ok 1 rest => .ok .Output rest
  | .ok 2 rest => .ok .Both rest
  | .ok _ _ => .err .InvalidValue
  | .err e => .err e

def writeBalanceType : BalanceType → List Nat
  | .Input => [0]
  | .Output => [1]
  | .Both => [2]

/-- Modelled from the spec: BlockId, a (topoheight, hash) pair identifying
a recent block; equality is by hash (section 3). -/
structure BlockId where
  topo : Nat
  hash : Hash
  deriving DecidableEq

/-- The key realising BlockId equality inside ordered-unique sets. -/
def BlockId.key (b : BlockId) : List Nat := b.hash

def BlockId.read (s : List Nat) : RResult BlockId :=
  match readU64 s with
  | .ok t s' =>
    match readHash s' with
    | .ok h r => .ok ⟨t, h⟩ r
    | .err e => .err e
  | .err e => .err e

def BlockId.write (b : BlockId) : List Nat :=
  writeU64 b.topo ++ writeHash b.hash

def BlockId.size (_ : BlockId) : Nat := 8 + HASH_SIZE

/-- Modelled from the spec: CommonPoint, the (hash, topoheight) where the
two chain views agree (section 3). -/
structure CommonPoint where
  hash : Hash
  topo : Nat
  deriving DecidableEq

def CommonPoint.read (s : List Nat) : RResult CommonPoint :=
  match readHash s with
  | .ok h s' =>
    match readU64 s' with
    | .ok t r => .ok ⟨h, t⟩ r
    | .err e => .err e
  | .err e => .err e

def CommonPoint.write (c : CommonPoint) : List Nat :=
  writeHash c.hash ++ writeU64 c.topo

def CommonPoint.size (_ : CommonPoint) : Nat := HASH_SIZE + 8

/-- Modelled from the spec: an asset identifier plus registration metadata
(decimals, owner, registration topoheight); equality is by asset hash
(section 3). -/
structure AssetWithData where
  asset : Hash
  decimals : Nat
  owner : PublicKey
  topo : Nat
  deriving DecidableEq

/-- The key realising AssetWithData equality inside ordered-unique sets. -/
def AssetWithData.key (a : AssetWithData) : List Nat := a.asset

def AssetWithData.read (s : List Nat) : RResult AssetWithData :=
  match readHash s with
  | .ok h s₁ =>
    match readU8 s₁ with
    | .ok d s₂ =>
      match readKey s₂ with
      | .ok o s₃ =>
        match readU64 s₃ with
        | .ok t r => .ok ⟨h, d, o, t⟩ r
        | .err e => .err e
      | .err e => .err e
    | .err e => .err e
  | .err e => .err e

def AssetWithData.write (a : AssetWithData) : List Nat :=
  writeHash a.asset ++ a.decimals :: (writeKey a.owner ++ writeU64 a.topo)

def AssetWithData.size (_ : AssetWithData) : Nat :=
  HASH_SIZE + 1 + KEY_SIZE + 8

/-- One optional balance entry of a Balances response: balance ciphertext,
optional output-balance ciphertext, and balance type. -/
abbrev BalanceEntry := Ciphertext × Option Ciphertext × BalanceType

def readBalanceEntry (s : List Nat) : RResult BalanceEntry :=
  match readCiphertext s with
  | .ok ct s₁ =>
    match readOptionWith readCiphertext s₁ with
    | .ok oct s₂ =>
      match readBalanceType s₂ with
      | .ok bt r => .ok (ct, oct, bt) r
      | .err e => .err e
    | .err e => .err e
  | .err e => .err e

def writeBalanceEntry (e : BalanceEntry) : List Nat :=
  e.1 ++ writeOptionWith (fun c => c) e.2.1 ++ writeBalanceType e.2.2

def balanceEntrySize (e : BalanceEntry) : Nat :=
  CIPHERTEXT_SIZE + optionSizeWith (fun _ => CIPHERTEXT_SIZE) e.2.1 + 1

/-- Per-block snapshot record of the bootstrap protocol
(bootstrap_chain.rs, struct BlockMetadata); equality is by hash. -/
structure BlockMetadata where
  hash : Hash
  supply : Nat
  reward : Nat
  difficulty : Nat
  cumulativeDifficulty : Nat
  p : Nat
  merkleHash : Hash
  deriving DecidableEq

/-- The key realising BlockMetadata equality inside ordered-unique sets. -/
def BlockMetadata.key (b : BlockMetadata) : List Nat := b.hash

def BlockMetadata.read (s : List Nat) : RResult BlockMetadata :=
  match readHash s with
  | .ok h s₁ =>
    match readU64 s₁ with
    | .ok su s₂ =>
      match readU64 s₂ with
      | .ok re s₃ =>
        match readVarUint s₃ with
        | .ok d s₄ =>
          match readVarUint s₄ with
          | .ok cd s₅ =>
            match readVarUint s₅ with
            | .ok p s₆ =>
              match readHash s₆ with
              | .ok mh r => .ok ⟨h, su, re, d, cd, p, mh⟩ r
              | .err e => .err e
            | .err e => .err e
          | .err e => .err e
        | .err e => .err e
      | .err e => .err e
    | .err e => .err e
  | .err e => .err e

def BlockMetadata.write (b : BlockMetadata) : List Nat :=
  writeHash b.hash ++ writeU64 b.supply ++ writeU64 b.reward ++
    writeVarUint b.difficulty ++ writeVarUint b.cumulativeDifficulty ++
    writeVarUint b.p ++ writeHash b.merkleHash

def BlockMetadata.size (b : BlockMetadata) : Nat :=
  HASH_SIZE + 8 + 8 + varUintSize b.difficulty +
    varUintSize b.cumulativeDifficulty + varUintSize b.p + HASH_SIZE

/-- Maximum number of items a response page may carry
(bootstrap_chain.rs, MAX_ITEMS_PER_PAGE). -/
def MAX_ITEMS_PER_PAGE : Nat := 1024

/-- Modelled from the spec: carrier-configured constant from the daemon
config (crate::config, not among the sources); it must fit in a u8
(section 6) and is fixed here at the representative value 64. -/
def CHAIN_SYNC_REQUEST_MAX_BLOCKS : Nat := 64

/-- The seven protocol phases (bootstrap_chain.rs, enum StepKind). -/
inductive StepKind where
  | ChainInfo
  | BlockHashes
  | Assets
  | Keys
  | Balances
  | Nonces
  | BlocksMetadata
  deriving DecidableEq

/-- Successor of a phase (bootstrap_chain.rs, StepKind::next). -/
def StepKind.next : StepKind → Option StepKind
  | .ChainInfo => some .BlockHashes
  | .BlockHashes => some .Assets
  | .Assets => some .Keys
  | .Keys => some .Balances
  | .Balances => some .Nonces
  | .Nonces => some .BlocksMetadata
  | .BlocksMetadata => none

/-- Request messages (bootstrap_chain.rs, enum StepRequest); Cow payloads
are wire-transparent and are therefore inlined. -/
inductive StepRequest where
  | ChainInfo (blocks : List BlockId)
  | Merkles (commonTopo topo : Nat) (page : Option Nat)
  | Assets (minTopo maxTopo : Nat) (page : Option Nat)
  | Keys (minTopo maxTopo : Nat) (page : Option Nat)
  | Balances (topo : Nat) (asset : Hash) (keys : List PublicKey)
  | Nonces (topo : Nat) (keys : List PublicKey)
  | BlocksMetadata (topo : Nat)
  deriving DecidableEq

/-- Response messages (bootstrap_chain.rs, enum StepResponse). -/
inductive StepResponse where
  | ChainInfo (cp : Option CommonPoint) (topo stableHeight : Nat)
      (hash merkleHash : Hash)
  | Merkles (pairs : List (Hash × Hash)) (page : Option Nat)
  | Assets (assets : List AssetWithData) (page : Option Nat)
  | Keys (keys : List PublicKey) (page : Option Nat)
  | Balances (balances : List (Option BalanceEntry))
  | Nonces (nonces : List Nat)
  | BlocksMetadata (blocks : List BlockMetadata)
  deriving DecidableEq

/-- Phase of a request (bootstrap_chain.rs, StepRequest::kind). -/
def StepRequest.kind : StepRequest → StepKind
  | .ChainInfo _ => .ChainInfo
  | .Merkles _ _ _ => .BlockHashes
  | .Assets _ _ _ => .Assets
  | .Keys _ _ _ => .Keys
  | .Balances _ _ _ => .Balances
  | .Nonces _ _ => .Nonces
  | .BlocksMetadata _ => .BlocksMetadata

/-- Topoheight carried by a request
(bootstrap_chain.rs, StepRequest::get_requested_topoheight). -/
def StepRequest.getRequestedTopoheight : StepRequest → Option Nat
  | .ChainInfo _ => none
  | .Merkles topo _ _ => some topo
  | .Assets _ topo _ => some topo
  | .Keys _ topo _ => some topo
  | .Balances topo _ _ => some topo
  | .Nonces topo _ => some topo
  | .BlocksMetadata topo => some topo

/-- Phase of a response (bootstrap_chain.rs, StepResponse::kind). -/
def StepResponse.kind : StepResponse → StepKind
  | .ChainInfo _ _ _ _ _ => .ChainInfo
  | .Merkles _ _ => .BlockHashes
  | .Assets _ _ => .Assets
  | .Keys _ _ => .Keys
  | .Balances _ => .Balances
  | .Nonces _ => .Nonces
  | .BlocksMetadata _ => .BlocksMetadata

/-- Request decoder (bootstrap_chain.rs, impl Serializer for StepRequest,
fn read). -/
def StepRequest.read (s : List Nat) : RResult StepRequest :=
  match readU8 s with
  | .ok 0 s₀ =>
    match readU8 s₀ with
    | .ok len s₁ =>
      if len = 0 ∨ CHAIN_SYNC_REQUEST_MAX_BLOCKS < len then .err .InvalidValue
      else
        match readSetItems BlockId.read BlockId.key len [] s₁ with
        | .ok blocks s₂ => .ok (.ChainInfo blocks) s₂
        | .err e => .err e
    | .err e => .err e
  | .ok 1 s₀ =>
    match readU64 s₀ with
    | .ok c s₁ =>
      match readU64 s₁ with
      | .ok t s₂ =>
        match readOptionWith readU64 s₂ with
        | .ok page s₃ =>
          if page = some 0 then .err .InvalidValue
          else .ok (.Merkles c t page) s₃
        | .err e => .err e
      | .err e => .err e
    | .err e => .err e
  | .ok 2 s₀ =>
    match readU64 s₀ with
    | .ok m s₁ =>
      match readU64 s₁ with
      | .ok t s₂ =>
        if t < m then .err .InvalidValue
        else
          match readOptionWith readU64 s₂ with
          | .ok page s₃ =>
            if page = some 0 then .err .InvalidValue
            else .ok (.Assets m t page) s₃
          | .err e => .err e
      | .err e => .err e
    | .err e => .err e
  | .ok 3 s₀ =>
    match readU64 s₀ with
    | .ok m s₁ =>
      match readU64 s₁ with
      | .ok t s₂ =>
        if t < m then .err .InvalidValue
        else
          match readOptionWith readU64 s₂ with
          | .ok page s₃ =>
            if page = some 0 then .err .InvalidValue
            else .ok (.Keys m t page) s₃
          | .err e => .err e
      | .err e => .err e
    | .err e => .err e
  | .ok 4 s₀ =>
    match readU64 s₀ with
    | .ok t s₁ =>
      match readHash s₁ with
      | .ok a s₂ =>
        match readSetU32 readKey (fun k => k) s₂ with
        | .ok ks s₃ => .ok (.Balances t a ks) s₃
        | .err e => .err e
      | .err e => .err e
    | .err e => .err e
  | .ok 5 s₀ =>
    match readU64 s₀ with
    | .ok t s₁ =>
      match readSetU32 readKey (fun k => k) s₁ with
      | .ok ks s₂ => .ok (.Nonces t ks) s₂
      | .err e => .err e
    | .err e => .err e
  | .ok 6 s₀ =>
    match readU64 s₀ with
    | .ok t s₁ => .ok (.BlocksMetadata t) s₁
    | .err e => .err e
  | .ok _ _ => .err .InvalidValue
  | .err e => .err e

/-- Request encoder (bootstrap_chain.rs, impl Serializer for StepRequest,
fn write); the block count is written as a u8 cast. -/
def StepRequest.write : StepRequest → List Nat
  | .ChainInfo blocks =>
    0 :: (blocks.length % 256) :: writeItems BlockId.write blocks
  | .Merkles c t page =>
    1 :: (writeU64 c ++ writeU64 t ++ writeOptionWith writeU64 page)
  | .Assets m t page =>
    2 :: (writeU64 m ++ writeU64 t ++ writeOptionWith writeU64 page)
  | .Keys m t page =>
    3 :: (writeU64 m ++ writeU64 t ++ writeOptionWith writeU64 page)
  | .Balances t a ks =>
    4 :: (writeU64 t ++ writeHash a ++ writeSetU32 writeKey ks)
  | .Nonces t ks =>
    5 :: (writeU64 t ++ writeSetU32 writeKey ks)
  | .BlocksMetadata t =>
    6 :: writeU64 t

/-- Modelled from the spec where xelis_common is missing: serializer size of
an IndexSet of BlockIds, a u8 length prefix plus the items (section 4.1,
length prefix width u8 when bounded by 256, as for BlockIds). -/
def blockIdSetSize (blocks : List BlockId) : Nat :=
  1 + (blocks.map BlockId.size).sum

/-- Modelled from the spec where xelis_common is missing: serializer size of
an IndexSet of PublicKeys, a u32 length prefix plus the items
(section 4.1). -/
def pubKeySetSize (keys : List PublicKey) : Nat :=
  4 + (keys.map (fun _ => KEY_SIZE)).sum

/-- Request size (bootstrap_chain.rs, impl Serializer for StepRequest,
fn size); the trailing + 1 is the source's "1 for the id". -/
def StepRequest.size (r : StepRequest) : Nat :=
  (match r with
    | .ChainInfo blocks => 1 + blockIdSetSize blocks
    | .Merkles _ _ page => 8 + 8 + optionSizeWith (fun _ => 8) page
    | .Assets _ _ page => 8 + 8 + optionSizeWith (fun _ => 8) page
    | .Keys _ _ page => 8 + 8 + optionSizeWith (fun _ => 8) page
    | .Balances _ _ ks => 8 + HASH_SIZE + pubKeySetSize ks
    | .Nonces _ ks => 8 + pubKeySetSize ks
    | .BlocksMetadata _ => 8) + 1

/-- Response decoder (bootstrap_chain.rs, impl Serializer for StepResponse,
fn read): tag 0 ChainInfo, 1 Assets, 2 Keys, 3 Balances, 4 Nonces,
5 BlocksMetadata, anything else invalid. -/
def StepResponse.read (s : List Nat) : RResult StepResponse :=
  match readU8 s with
  | .ok 0 s₀ =>
    match readOptionWith CommonPoint.read s₀ with
    | .ok cp s₁ =>
      match readU64 s₁ with
      | .ok topo s₂ =>
        match readU64 s₂ with
        | .ok sh s₃ =>
          match readHash s₃ with
          | .ok h s₄ =>
            match readHash s₄ with
            | .ok mh s₅ => .ok (.ChainInfo cp topo sh h mh) s₅
            | .err e => .err e
          | .err e => .err e
        | .err e => .err e
      | .err e => .err e
    | .err e => .err e
  | .ok 1 s₀ =>
    match readSetU32 AssetWithData.read AssetWithData.key s₀ with
    | .ok assets s₁ =>
      match readOptionWith readU64 s₁ with
      | .ok page s₂ =>
        if page = some 0 then .err .InvalidValue
        else .ok (.Assets assets page) s₂
      | .err e => .err e
    | .err e => .err e
  | .ok 2 s₀ =>
    match readSetU32 readKey (fun k => k) s₀ with
    | .ok ks s₁ =>
      match readOptionWith readU64 s₁ with
      | .ok page s₂ =>
        if page = some 0 then .err .InvalidValue
        else .ok (.Keys ks page) s₂
      | .err e => .err e
    | .err e => .err e
  | .ok 3 s₀ =>
    match readListU32 (readOptionWith readBalanceEntry) s₀ with
    | .ok bals s₁ => .ok (.Balances bals) s₁
    | .err e => .err e
  | .ok 4 s₀ =>
    match readListU32 readU64 s₀ with
    | .ok ns s₁ => .ok (.Nonces ns) s₁
    | .err e => .err e
  | .ok 5 s₀ =>
    match readSetU32 BlockMetadata.read BlockMetadata.key s₀ with
    | .ok bs s₁ => .ok (.BlocksMetadata bs) s₁
    | .err e => .err e
  | .ok _ _ => .err .InvalidValue
  | .err e => .err e

def writePair (p : Hash × Hash) : List Nat := p.1 ++ p.2

/-- Response encoder (bootstrap_chain.rs, impl Serializer for StepResponse,
fn write): tag 0 ChainInfo, 1 Merkles, 2 Assets, 3 Keys, 4 Balances,
5 Nonces, 6 BlocksMetadata. -/
def StepResponse.write : StepResponse → List Nat
  | .ChainInfo cp topo sh h mh =>
    0 :: (writeOptionWith CommonPoint.write cp ++ writeU64 topo ++
      writeU64 sh ++ writeHash h ++ writeHash mh)
  | .Merkles pairs page =>
    1 :: (writeSetU32 writePair pairs ++ writeOptionWith writeU64 page)
  | .Assets assets page =>
    2 :: (writeSetU32 AssetWithData.write assets ++
      writeOptionWith writeU64 page)
  | .Keys ks page =>
    3 :: (writeSetU32 writeKey ks ++ writeOptionWith writeU64 page)
  | .Balances bals =>
    4 :: writeListU32 (writeOptionWith writeBalanceEntry) bals
  | .Nonces ns =>
    5 :: writeListU32 writeU64 ns
  | .BlocksMetadata bs =>
    6 :: writeSetU32 BlockMetadata.write bs

/-- Response size (bootstrap_chain.rs, impl Serializer for StepResponse,
fn size); the trailing + 1 is the source's "1 for the id". -/
def StepResponse.size (r : StepResponse) : Nat :=
  (match r with
    | .ChainInfo cp _ _ _ _ =>
      optionSizeWith CommonPoint.size cp + 8 + 8 + HASH_SIZE + HASH_SIZE
    | .Merkles pairs page =>
      (4 + (pairs.map (fun _ => 2 * HASH_SIZE)).sum) +
        optionSizeWith (fun _ => 8) page
    | .Assets assets page =>
      (4 + (assets.map AssetWithData.size).sum) +
        optionSizeWith (fun _ => 8) page
    | .Keys ks page =>
      pubKeySetSize ks + optionSizeWith (fun _ => 8) page
    | .Balances bals =>
      4 + (bals.map (optionSizeWith balanceEntrySize)).sum
    | .Nonces ns =>
      4 + (ns.map (fun _ => 8)).sum
    | .BlocksMetadata bs =>
      4 + (bs.map BlockMetadata.size).sum) + 1

/-- Cardinality of the top-level collection of a decoded response
(the spec size invariant talks about this quantity). -/
def StepResponse.topCollectionCard : StepResponse → Nat
  | .ChainInfo _ _ _ _ _ => 0
  | .Merkles pairs _ => pairs.length
  | .Assets assets _ => assets.length
  | .Keys ks _ => ks.length
  | .Balances bals => bals.length
  | .Nonces ns => ns.length
  | .BlocksMetadata bs => bs.length

/-! Well-formedness of values, i.e. the shapes the wire format can carry:
fixed-width fields have their nominal width and u64 fields fit in 64 bits. -/

def HashWF (h : Hash) : Prop := h.length = HASH_SIZE

def KeyWF (k : PublicKey) : Prop := k.length = KEY_SIZE

def BlockIdWF (b : BlockId) : Prop := HashWF b.hash ∧ b.topo < 2 ^ 64

def CommonPointWF (c : CommonPoint) : Prop := HashWF c.hash

def AssetWF (a : AssetWithData) : Prop :=
  HashWF a.asset ∧ KeyWF a.owner ∧ a.topo < 2 ^ 64

def EntryWF (e : BalanceEntry) : Prop :=
  e.1.length = CIPHERTEXT_SIZE ∧
    ∀ c, e.2.1 = some c → c.length = CIPHERTEXT_SIZE

def BlockMetadataWF (b : BlockMetadata) : Prop :=
  HashWF b.hash ∧ HashWF b.merkleHash

def PairWF (p : Hash × Hash) : Prop := HashWF p.1 ∧ HashWF p.2

def StepRequestWF : StepRequest → Prop
  | .ChainInfo blocks => ∀ b ∈ blocks, BlockIdWF b
  | .Merkles _ _ _ => True
  | .Assets _ _ _ => True
  | .Keys _ _ _ => True
  | .Balances _ a ks => HashWF a ∧ ∀ k ∈ ks, KeyWF k
  | .Nonces _ ks => ∀ k ∈ ks, KeyWF k
  | .BlocksMetadata _ => True

def StepResponseWF : StepResponse → Prop
  | .ChainInfo cp _ _ h mh =>
    (∀ c, cp = some c → CommonPointWF c) ∧ HashWF h ∧ HashWF mh
  | .Merkles pairs _ => ∀ p ∈ pairs, PairWF p
  | .Assets assets _ => ∀ a ∈ assets, AssetWF a
  | .Keys ks _ => ∀ k ∈ ks, KeyWF k
  | .Balances bals => ∀ e, ∀ x ∈ bals, x = some e → EntryWF e
  | .Nonces _ => True
  | .BlocksMetadata bs => ∀ b ∈ bs, BlockMetadataWF b

/-! Basic properties of the byte-level codec. -/

theorem natToBytesBE_length (n v : Nat) : (natToBytesBE n v).length = n := by
  induction n generalizing v with
  | zero => rfl
  | succ n ih => simp [natToBytesBE, ih]

theorem readBytes_append (l rest : List Nat) :
    readBytes l.length (l ++ rest) = .ok l rest := by
  unfold readBytes
  rw [if_pos (by simp)]
  rw [List.take_left, List.drop_left]

theorem readU8_cons (b : Nat) (s : List Nat) : readU8 (b :: s) = .ok b s := rfl

theorem readU64_append (l rest : List Nat) (h : l.length = 8) :
    readU64 (l ++ rest) = .ok (bytesToNat l) rest := by
  unfold readU64
  rw [← h, readBytes_append]

theorem readU32_append (l rest : List Nat) (h : l.length = 4) :
    readU32 (l ++ rest) = .ok (bytesToNat l) rest := by
  unfold readU32
  rw [← h, readBytes_append]

theorem bytesToNat_append_single (l : List Nat) (b : Nat) :
    bytesToNat (l ++ [b]) = 256 * bytesToNat l + b := by
  unfold bytesToNat
  rw [List.foldl_append]
  rfl

theorem bytesToNat_natToBytesBE (n v : Nat) :
    bytesToNat (natToBytesBE n v) = v % 256 ^ n := by
  induction n generalizing v with
  | zero => simp [natToBytesBE, bytesToNat, Nat.mod_one]
  | succ n ih =>
    rw [natToBytesBE, bytesToNat_append_single, ih]
    have h : (256 : Nat) ^ (n + 1) = 256 * 256 ^ n := by ring
    rw [h, Nat.mod_mul]
    omega

theorem readU64_write (v : Nat) (rest : List Nat) :
    readU64 (writeU64 v ++ rest) = .ok (v % 2 ^ 64) rest := by
  rw [writeU64, readU64_append _ _ (natToBytesBE_length 8 v),
    bytesToNat_natToBytesBE]
  norm_num

theorem readU32_write (v : Nat) (rest : List Nat) :
    readU32 (writeU32 v ++ rest) = .ok (v % 2 ^ 32) rest := by
  rw [writeU32, readU32_append _ _ (natToBytesBE_length 4 v),
    bytesToNat_natToBytesBE]
  norm_num

theorem bytesToNat_aux_lt (l : List Nat) (a : Nat) (h : ∀ b ∈ l, b < 256) :
    List.foldl (fun x b => 256 * x + b) a l < (a + 1) * 256 ^ l.length := by
  induction l generalizing a with
  | nil => simp
  | cons b t ih =>
    have hb : b < 256 := h b (by simp)
    have ht : ∀ x ∈ t, x < 256 := fun x hx => h x (by simp [hx])
    calc List.foldl (fun x b => 256 * x + b) (256 * a + b) t
        < (256 * a + b + 1) * 256 ^ t.length := ih _ ht
      _ ≤ (256 * (a + 1)) * 256 ^ t.length := by
          have : 256 * a + b + 1 ≤ 256 * (a + 1) := by omega
          exact Nat.mul_le_mul_right _ this
      _ = (a + 1) * 256 ^ (t.length + 1) := by ring

theorem bytesToNat_lt (l : List Nat) (h : ∀ b ∈ l, b < 256) :
    bytesToNat l < 256 ^ l.length := by
  have := bytesToNat_aux_lt l 0 h
  simpa [bytesToNat] using this

/-! Properties of the collection readers. -/

theorem readList_length (rd : List Nat → RResult α) (n : Nat) :
    ∀ s xs r, readList rd n s = .ok xs r → xs.length = n := by
  induction n with
  | zero =>
    intro s xs r h
    rw [readList] at h
    cases h
    rfl
  | succ n ih =>
    intro s xs r h
    rw [readList] at h
    cases h₁ : rd s with
    | err e => simp only [h₁] at h; cases h
    | ok x s' =>
      simp only [h₁] at h
      cases h₂ : readList rd n s' with
      | err e => simp only [h₂] at h; cases h
      | ok ys s'' =>
        simp only [h₂] at h
        cases h
        simpa using ih s' ys _ h₂

theorem readSetItems_length (rd : List Nat → RResult α) (key : α → List Nat)
    (n : Nat) : ∀ acc s res r,
    readSetItems rd key n acc s = .ok res r → res.length = acc.length + n := by
  induction n with
  | zero =>
    intro acc s res r h
    rw [readSetItems] at h
    cases h
    rfl
  | succ n ih =>
    intro acc s res r h
    rw [readSetItems] at h
    cases h₁ : rd s with
    | err e => simp only [h₁] at h; cases h
    | ok x s' =>
      simp only [h₁] at h
      by_cases hmem : key x ∈ acc.map key
      · rw [if_pos hmem] at h; cases h
      · rw [if_neg hmem] at h
        have := ih (acc ++ [x]) s' res r h
        simp at this
        omega

theorem readList_u64_zeros (n : Nat) (rest : List Nat) :
    readList readU64 n (List.replicate (8 * n) 0 ++ rest) =
      .ok (List.replicate n 0) rest := by
  induction n with
  | zero => simp [readList]
  | succ n ih =>
    have hsplit : List.replicate (8 * (n + 1)) (0 : Nat) =
        List.replicate 8 0 ++ List.replicate (8 * n) 0 := by
      rw [← List.replicate_add]
      congr 1
      omega
    rw [hsplit, List.append_assoc, readList]
    have hz : bytesToNat (List.replicate 8 (0 : Nat)) = 0 := by decide
    have h8 : readU64 ((List.replicate 8 (0 : Nat)) ++
        (List.replicate (8 * n) 0 ++ rest)) =
        .ok 0 (List.replicate (8 * n) 0 ++ rest) := by
      rw [readU64_append _ _ (by simp), hz]
    simp only [h8, ih]
    simp [List.replicate_succ]

theorem writeItems_length (wr : α → List Nat) (sz : α → Nat) (l : List α)
    (h : ∀ x ∈ l, (wr x).length = sz x) :
    (writeItems wr l).length = (l.map sz).sum := by
  induction l with
  | nil => rfl
  | cons x xs ih =>
    rw [writeItems]
    simp only [List.length_append, List.map_cons, List.sum_cons]
    rw [h x (by simp), ih (fun y hy => h y (by simp [hy]))]

theorem nodup_split_not_mem (A : List α) (x : α) (B : List α)
    (h : (A ++ x :: B).Nodup) : x ∉ A := by
  rcases List.nodup_append.mp h with ⟨-, -, hdis⟩
  intro hx
  exact hdis hx (by simp)

theorem nodup_append_singleton (A : List α) (x : α)
    (hA : A.Nodup) (hx : x ∉ A) : (A ++ [x]).Nodup := by
  rw [List.nodup_append]
  exact ⟨hA, List.nodup_singleton x, fun a ha hb => by
    simp at hb
    subst hb
    exact hx ha⟩

theorem readSetItems_app (rd : List Nat → RResult α) (wr : α → List Nat)
    (key : α → List Nat) (l : List α) : ∀ (acc : List α) (rest : List Nat),
    (∀ x r, x ∈ l → rd (wr x ++ r) = .ok x r) →
    ((acc ++ l).map key).Nodup →
    readSetItems rd key l.length acc (writeItems wr l ++ rest) =
      .ok (acc ++ l) rest := by
  induction l with
  | nil =>
    intro acc rest _ _
    simp [readSetItems, writeItems]
  | cons x xs ih =>
    intro acc rest hrt hnd
    rw [writeItems, List.append_assoc, List.length_cons, readSetItems]
    have hx : key x ∉ acc.map key := by
      apply nodup_split_not_mem (acc.map key) (key x) (xs.map key)
      simpa using hnd
    have hnd' : (((acc ++ [x]) ++ xs).map key).Nodup := by
      have hre : (acc ++ [x]) ++ xs = acc ++ x :: xs := by simp
      rw [hre]
      exact hnd
    simp only [hrt x (writeItems wr xs ++ rest) (by simp), if_neg hx]
    rw [ih (acc ++ [x]) rest (fun y r hy => hrt y r (by simp [hy])) hnd']
    simp

theorem readSetItems_dup (rd : List Nat → RResult α) (wr : α → List Nat)
    (key : α → List Nat) (l : List α) : ∀ (acc : List α) (rest : List Nat),
    (∀ x r, x ∈ l → rd (wr x ++ r) = .ok x r) →
    (acc.map key).Nodup →
    ¬ ((acc ++ l).map key).Nodup →
    readSetItems rd key l.length acc (writeItems wr l ++ rest) =
      .err .InvalidValue := by
  induction l with
  | nil =>
    intro acc rest _ hacc hnd
    exact absurd (by simpa using hacc) hnd
  | cons x xs ih =>
    intro acc rest hrt hacc hnd
    rw [writeItems, List.append_assoc, List.length_cons, readSetItems]
    by_cases hx : key x ∈ acc.map key
    · simp only [hrt x (writeItems wr xs ++ rest) (by simp), if_pos hx]
    · simp only [hrt x (writeItems wr xs ++ rest) (by simp), if_neg hx]
      apply ih (acc ++ [x]) rest (fun y r hy => hrt y r (by simp [hy]))
      · simpa using nodup_append_singleton (acc.map key) (key x) hacc hx
      · intro hcon
        apply hnd
        have : (acc ++ [x]) ++ xs = acc ++ x :: xs := by simp
        rw [this] at hcon
        exact hcon

theorem readSetU32_writeSetU32 (rd : List Nat → RResult α)
    (wr : α → List Nat) (key : α → List Nat) (l : List α) (rest : List Nat)
    (hrt : ∀ x r, x ∈ l → rd (wr x ++ r) = .ok x r)
    (hnd : (l.map key).Nodup) (hlen : l.length < 2 ^ 32) :
    readSetU32 rd key (writeSetU32 wr l ++ rest) = .ok l rest := by
  rw [writeSetU32, List.append_assoc, readSetU32, readU32_write,
    Nat.mod_eq_of_lt hlen]
  have := readSetItems_app rd wr key l [] rest hrt (by simpa using hnd)
  simpa using this

/-! Bounds on the cardinality of decoded collections. -/

theorem readU32_ok_lt (s : List Nat) (n : Nat) (r : List Nat)
    (hb : ∀ b ∈ s, b < 256) (h : readU32 s = .ok n r) : n < 2 ^ 32 := by
  unfold readU32 readBytes at h
  by_cases h4 : 4 ≤ s.length
  · rw [if_pos h4] at h
    cases h
    have hsub : ∀ b ∈ s.take 4, b < 256 :=
      fun b hbmem => hb b (List.take_subset 4 s hbmem)
    have := bytesToNat_lt (s.take 4) hsub
    rw [List.length_take] at this
    have hmin : min 4 s.length = 4 := Nat.min_eq_left h4
    rw [hmin] at this
    calc bytesToNat (s.take 4) < 256 ^ 4 := this
      _ = 2 ^ 32 := by norm_num
  · rw [if_neg h4] at h
    cases h

theorem readSetU32_ok_card (rd : List Nat → RResult α) (key : α → List Nat)
    (s : List Nat) (l : List α) (r : List Nat)
    (hb : ∀ b ∈ s, b < 256) (h : readSetU32 rd key s = .ok l r) :
    l.length < 2 ^ 32 := by
  unfold readSetU32 at h
  cases h32 : readU32 s with
  | err e => rw [h32] at h; cases h
  | ok n s' =>
    rw [h32] at h
    have hn := readU32_ok_lt s n s' hb h32
    have hl := readSetItems_length rd key n [] s' l r h
    simp at hl
    omega

theorem readListU32_ok_card (rd : List Nat → RResult α)
    (s : List Nat) (l : List α) (r : List Nat)
    (hb : ∀ b ∈ s, b < 256) (h : readListU32 rd s = .ok l r) :
    l.length < 2 ^ 32 := by
  unfold readListU32 at h
  cases h32 : readU32 s with
  | err e => rw [h32] at h; cases h
  | ok n s' =>
    rw [h32] at h
    have hn := readU32_ok_lt s n s' hb h32
    have hl := readList_length rd n s' l r h
    omega

/-! Round trips for the individual payload items. -/

theorem readHash_append (h : Hash) (rest : List Nat) (hwf : HashWF h) :
    readHash (writeHash h ++ rest) = .ok h rest := by
  have h32 : h.length = 32 := hwf
  rw [readHash, writeHash, HASH_SIZE, ← h32, readBytes_append]

theorem readKey_append (k : PublicKey) (rest : List Nat) (hwf : KeyWF k) :
    readKey (writeKey k ++ rest) = .ok k rest := by
  have h32 : k.length = 32 := hwf
  rw [readKey, writeKey, KEY_SIZE, ← h32, readBytes_append]

theorem assetWithData_read_write (a : AssetWithData) (rest : List Nat)
    (hwf : AssetWF a) :
    AssetWithData.read (AssetWithData.write a ++ rest) = .ok a rest := by
  obtain ⟨hasset, howner, htopo⟩ := hwf
  rw [AssetWithData.write, AssetWithData.read]
  rw [List.append_assoc]
  simp only [readHash_append a.asset _ hasset, List.cons_append, readU8_cons,
    List.append_assoc, readKey_append a.owner _ howner, readU64_write,
    Nat.mod_eq_of_lt htopo]

theorem blockId_read_write (b : BlockId) (rest : List Nat)
    (hwf : BlockIdWF b) :
    BlockId.read (BlockId.write b ++ rest) = .ok b rest := by
  obtain ⟨hh, ht⟩ := hwf
  rw [BlockId.write, BlockId.read, List.append_assoc]
  simp only [readU64_write, Nat.mod_eq_of_lt ht,
    readHash_append b.hash _ hh]

/-! Settlement of the claims. -/

/-- The canonical visiting order of the seven protocol phases. -/
def stepOrder : List StepKind :=
  [.ChainInfo, .BlockHashes, .Assets, .Keys, .Balances, .Nonces,
    .BlocksMetadata]

/-- Claim C9: StepKind.next realises the fixed successor chain
ChainInfo to BlockHashes to Assets to Keys to Balances to Nonces to
BlocksMetadata to none, and iterating next from ChainInfo visits every
StepKind exactly once in that order. -/
theorem c9_stepkind_chain :
    StepKind.next .ChainInfo = some .BlockHashes ∧
    StepKind.next .BlockHashes = some .Assets ∧
    StepKind.next .Assets = some .Keys ∧
    StepKind.next .Keys = some .Balances ∧
    StepKind.next .Balances = some .Nonces ∧
    StepKind.next .Nonces = some .BlocksMetadata ∧
    StepKind.next .BlocksMetadata = none ∧
    stepOrder.head? = some .ChainInfo ∧
    List.Chain' (fun a b => StepKind.next a = some b) stepOrder ∧
    stepOrder.Nodup ∧
    ∀ k : StepKind, k ∈ stepOrder := by
  refine ⟨rfl, rfl, rfl, rfl, rfl, rfl, rfl, rfl, ?_, ?_, ?_⟩
  · simp [stepOrder, List.chain'_cons, StepKind.next]
  · simp [stepOrder]
  · intro k
    cases k <;> simp [stepOrder]

/-- Claim C10: get_requested_topoheight returns none for ChainInfo, the
first u64 (the common topoheight) for Merkles, the max topoheight for
Assets and Keys, and the single topoheight for Balances, Nonces and
BlocksMetadata. -/
theorem c10_requested_topoheight :
    (∀ blocks,
      StepRequest.getRequestedTopoheight (.ChainInfo blocks) = none) ∧
    (∀ c t p, StepRequest.getRequestedTopoheight (.Merkles c t p) = some c) ∧
    (∀ m t p, StepRequest.getRequestedTopoheight (.Assets m t p) = some t) ∧
    (∀ m t p, StepRequest.getRequestedTopoheight (.Keys m t p) = some t) ∧
    (∀ t a ks,
      StepRequest.getRequestedTopoheight (.Balances t a ks) = some t) ∧
    (∀ t ks, StepRequest.getRequestedTopoheight (.Nonces t ks) = some t) ∧
    (∀ t, StepRequest.getRequestedTopoheight (.BlocksMetadata t) = some t) :=
  ⟨fun _ => rfl, fun _ _ _ => rfl, fun _ _ _ => rfl, fun _ _ _ => rfl,
    fun _ _ _ => rfl, fun _ _ => rfl, fun _ => rfl⟩

/-- Claim C1 (code-bug evidence): response round-trip fails on the code.
Encoding Nonces [] writes tag 5, which the decoder maps to BlocksMetadata,
so decode (encode v) is a different value; encoding BlocksMetadata []
writes tag 6, which the decoder rejects outright. -/
theorem c1_response_roundtrip_fails :
    StepResponse.read (StepResponse.write (.Nonces [])) =
      .ok (.BlocksMetadata []) [] ∧
    StepResponse.read (StepResponse.write (.Nonces [])) ≠
      .ok (.Nonces []) [] ∧
    StepResponse.read (StepResponse.write (.BlocksMetadata [])) =
      .err .InvalidValue :=
  ⟨by decide, by decide, by decide⟩

/-- Claim C2 (code-bug evidence): the response encoder and decoder disagree
on tag numbering. Encoding an Assets response writes tag byte 2, while the
decoder returns an Assets response from tag 1 and a Keys response from
tag 2. -/
theorem c2_response_tag_mismatch :
    (StepResponse.write (.Assets [] none)).head? = some 2 ∧
    StepResponse.read (2 :: (writeSetU32 writeKey [] ++ [0])) =
      .ok (.Keys [] none) [] ∧
    StepResponse.read (1 :: (writeSetU32 AssetWithData.write [] ++ [0])) =
      .ok (.Assets [] none) [] :=
  ⟨by decide, by decide, by decide⟩

/-- Claim C3 (counterexample): for a ChainInfo request holding one BlockId
the declared size (43) differs from the encoded length (42): the set's
length prefix is counted twice. -/
theorem c3_size_counterexample :
    StepRequest.size (.ChainInfo [⟨0, List.replicate 32 0⟩]) ≠
      (StepRequest.write (.ChainInfo [⟨0, List.replicate 32 0⟩])).length := by
  decide

/-- Claim C5: decoding a ChainInfo request whose declared BlockId count is
0 or exceeds CHAIN_SYNC_REQUEST_MAX_BLOCKS fails with InvalidValue. -/
theorem c5_chaininfo_count_rejected (len : Nat) (rest : List Nat)
    (h : len = 0 ∨ CHAIN_SYNC_REQUEST_MAX_BLOCKS < len) :
    StepRequest.read (0 :: len :: rest) = .err .InvalidValue := by
  rw [StepRequest.read]
  simp only [readU8_cons]
  rw [if_pos h]

/-- Witness for claim C5 at count 0. -/
theorem c5_chaininfo_count_rejected_witness :
    StepRequest.read (0 :: 0 :: []) = .err .InvalidValue :=
  c5_chaininfo_count_rejected 0 [] (Or.inl rfl)

/-- Claim C7: decoding an Assets (tag 2) or Keys (tag 3) request whose
min-topoheight field exceeds its max-topoheight field fails with
InvalidValue. -/
theorem c7_reversed_range_rejected (m t rest : List Nat)
    (hm : m.length = 8) (ht : t.length = 8)
    (hlt : bytesToNat t < bytesToNat m) :
    StepRequest.read (2 :: (m ++ (t ++ rest))) = .err .InvalidValue ∧
    StepRequest.read (3 :: (m ++ (t ++ rest))) = .err .InvalidValue := by
  constructor
  · rw [StepRequest.read]
    simp only [readU8_cons, readU64_append m _ hm, readU64_append t _ ht]
    rw [if_pos hlt]
  · rw [StepRequest.read]
    simp only [readU8_cons, readU64_append m _ hm, readU64_append t _ ht]
    rw [if_pos hlt]

/-- Witness for claim C7 with min 1 and max 0. -/
theorem c7_reversed_range_rejected_witness :
    StepRequest.read (2 :: ([0, 0, 0, 0, 0, 0, 0, 1] ++
      (List.replicate 8 0 ++ []))) = .err .InvalidValue ∧
    StepRequest.read (3 :: ([0, 0, 0, 0, 0, 0, 0, 1] ++
      (List.replicate 8 0 ++ []))) = .err .InvalidValue :=
  c7_reversed_range_rejected [0, 0, 0, 0, 0, 0, 0, 1] (List.replicate 8 0)
    [] (by decide) (by decide) (by decide)

/-- Claim C8: decoding a ChainInfo request with an in-range count but a
repeated BlockId (equality by hash) fails with InvalidValue. -/
theorem c8_duplicate_blockid_rejected (l : List BlockId) (rest : List Nat)
    (hwf : ∀ b ∈ l, BlockIdWF b)
    (hne : l ≠ [])
    (hle : l.length ≤ CHAIN_SYNC_REQUEST_MAX_BLOCKS)
    (hdup : ¬ (l.map BlockId.key).Nodup) :
    StepRequest.read (0 :: l.length :: (writeItems BlockId.write l ++ rest)) =
      .err .InvalidValue := by
  rw [StepRequest.read]
  simp only [readU8_cons]
  rw [if_neg (by
    rintro (h0 | hgt)
    · exact hne (List.length_eq_zero.mp h0)
    · exact absurd hle (not_le.mpr hgt))]
  have hrd := readSetItems_dup BlockId.read BlockId.write BlockId.key l []
    rest (fun x r hx => blockId_read_write x r (hwf x hx)) (by simp)
    (by simpa using hdup)
  simp only [hrd]

/-- Witness for claim C8 with two identical BlockIds. -/
theorem c8_duplicate_blockid_rejected_witness :
    StepRequest.read (0 :: 2 :: (writeItems BlockId.write
      [⟨0, List.replicate 32 0⟩, ⟨0, List.replicate 32 0⟩] ++ [])) =
      .err .InvalidValue :=
  c8_duplicate_blockid_rejected
    [⟨0, List.replicate 32 0⟩, ⟨0, List.replicate 32 0⟩] []
    (by
      intro b hb
      simp [List.mem_cons] at hb
      rcases hb with rfl | rfl <;> exact ⟨rfl, by norm_num⟩)
    (by simp) (by decide) (by decide)

/-- Claim C6: decoding any paginated message carrying a present page cursor
equal to 0 fails with InvalidValue: a Merkles, Assets or Keys request
(request tags agree between encoder and decoder), or an Assets or Keys
response (streams shaped per the decoder's response tag table, tags 1
and 2, carrying a validly encoded set followed by cursor some 0). -/
theorem c6_zero_page_rejected :
    (∀ c t rest, StepRequest.read
      (StepRequest.write (.Merkles c t (some 0)) ++ rest) =
        .err .InvalidValue) ∧
    (∀ m t rest, StepRequest.read
      (StepRequest.write (.Assets m t (some 0)) ++ rest) =
        .err .InvalidValue) ∧
    (∀ m t rest, StepRequest.read
      (StepRequest.write (.Keys m t (some 0)) ++ rest) =
        .err .InvalidValue) ∧
    (∀ l rest, (∀ a ∈ l, AssetWF a) → (l.map AssetWithData.key).Nodup →
      l.length < 2 ^ 32 →
      StepResponse.read (1 :: (writeSetU32 AssetWithData.write l ++
        (1 :: (writeU64 0 ++ rest)))) = .err .InvalidValue) ∧
    (∀ l rest, (∀ k ∈ l, KeyWF k) → l.Nodup → l.length < 2 ^ 32 →
      StepResponse.read (2 :: (writeSetU32 writeKey l ++
        (1 :: (writeU64 0 ++ rest)))) = .err .InvalidValue) := by
  refine ⟨?_, ?_, ?_, ?_, ?_⟩
  · intro c t rest
    rw [StepRequest.write, StepRequest.read]
    simp [writeOptionWith, readOptionWith, readU8_cons, readU64_write,
      List.append_assoc]
  · intro m t rest
    rw [StepRequest.write, StepRequest.read]
    simp only [writeOptionWith, List.cons_append, List.append_assoc,
      readU8_cons, readU64_write]
    by_cases hmt : t % 2 ^ 64 < m % 2 ^ 64
    · rw [if_pos hmt]
    · rw [if_neg hmt]
      simp [readOptionWith, readU8_cons, readU64_write]
  · intro m t rest
    rw [StepRequest.write, StepRequest.read]
    simp only [writeOptionWith, List.cons_append, List.append_assoc,
      readU8_cons, readU64_write]
    by_cases hmt : t % 2 ^ 64 < m % 2 ^ 64
    · rw [if_pos hmt]
    · rw [if_neg hmt]
      simp [readOptionWith, readU8_cons, readU64_write]
  · intro l rest hwf hnd hlen
    rw [StepResponse.read]
    have hset := readSetU32_writeSetU32 AssetWithData.read
      AssetWithData.write AssetWithData.key l (1 :: (writeU64 0 ++ rest))
      (fun x r hx => assetWithData_read_write x r (hwf x hx)) hnd hlen
    simp only [readU8_cons, hset]
    simp [readOptionWith, readU8_cons, readU64_write]
  · intro l rest hwf hnd hlen
    rw [StepResponse.read]
    have hset := readSetU32_writeSetU32 readKey writeKey (fun k => k) l
      (1 :: (writeU64 0 ++ rest))
      (fun x r hx => readKey_append x r (hwf x hx)) (by simpa using hnd)
      hlen
    simp only [readU8_cons, hset]
    simp [readOptionWith, readU8_cons, readU64_write]

/-- Witness for claim C6: each of the five paginated shapes with cursor 0
is rejected at a concrete instance. -/
theorem c6_zero_page_rejected_witness :
    StepRequest.read (StepRequest.write (.Merkles 0 0 (some 0)) ++ []) =
      .err .InvalidValue ∧
    StepRequest.read (StepRequest.write (.Assets 0 0 (some 0)) ++ []) =
      .err .InvalidValue ∧
    StepRequest.read (StepRequest.write (.Keys 0 0 (some 0)) ++ []) =
      .err .InvalidValue ∧
    StepResponse.read (1 :: (writeSetU32 AssetWithData.write [] ++
      (1 :: (writeU64 0 ++ [])))) = .err .InvalidValue ∧
    StepResponse.read (2 :: (writeSetU32 writeKey [] ++
      (1 :: (writeU64 0 ++ [])))) = .err .InvalidValue :=
  ⟨c6_zero_page_rejected.1 0 0 [],
    c6_zero_page_rejected.2.1 0 0 [],
    c6_zero_page_rejected.2.2.1 0 0 [],
    c6_zero_page_rejected.2.2.2.1 [] [] (by simp) (by simp) (by norm_num),
    c6_zero_page_rejected.2.2.2.2 [] [] (by simp) (by simp) (by norm_num)⟩

/-- Claim C4 (counterexample): a Nonces response stream declaring 1025
entries decodes successfully, so the top-level collection of a decoded
response can exceed MAX_ITEMS_PER_PAGE. -/
theorem c4_cardinality_counterexample :
    StepResponse.read (4 :: ([0, 0, 4, 1] ++ List.replicate 8200 0)) =
      .ok (.Nonces (List.replicate 1025 0)) [] ∧
    ¬ (StepResponse.topCollectionCard (.Nonces (List.replicate 1025 0)) ≤
        MAX_ITEMS_PER_PAGE) := by
  constructor
  · have hb : bytesToNat [0, 0, 4, 1] = 1025 := by decide
    have h1 : readU32 ([0, 0, 4, 1] ++ List.replicate 8200 0) =
        .ok 1025 (List.replicate 8200 0) := by
      rw [readU32_append [0, 0, 4, 1] _ (by decide), hb]
    have h3 : readList readU64 1025 (List.replicate 8200 (0 : Nat)) =
        .ok (List.replicate 1025 0) [] := by
      have h2 : List.replicate 8200 (0 : Nat) =
          List.replicate (8 * 1025) 0 ++ [] := by norm_num
      rw [h2]
      exact readList_u64_zeros 1025 []
    rw [StepResponse.read]
    simp only [readU8_cons, readListU32, h1, h3]
  · intro hle
    rw [show StepResponse.topCollectionCard
        (.Nonces (List.replicate 1025 0)) =
        (List.replicate 1025 (0 : Nat)).length from rfl,
      List.length_replicate] at hle
    exact absurd hle (by norm_num [MAX_ITEMS_PER_PAGE])

/-- Claim C4 (amended): decoding does not enforce the page cap; what holds
is the u32 length-prefix bound: for every stream of valid bytes from which
a response decodes, the top-level collection has at most 2^32 - 1
entries. -/
theorem c4_cardinality_amended (s : List Nat) (r : StepResponse)
    (rest : List Nat) (hb : ∀ b ∈ s, b < 256)
    (h : StepResponse.read s = .ok r rest) :
    StepResponse.topCollectionCard r ≤ 2 ^ 32 - 1 := by
  rw [StepResponse.read] at h
  cases s with
  | nil => simp [readU8] at h
  | cons b s₀ =>
    have hb₀ : ∀ x ∈ s₀, x < 256 := fun x hx => hb x (by simp [hx])
    simp only [readU8_cons] at h
    rcases b with _ | _ | _ | _ | _ | _ | b
    · cases hcp : readOptionWith CommonPoint.read s₀ with
      | err e => simp only [hcp] at h; cases h
      | ok cp s₁ =>
        simp only [hcp] at h
        cases h₁ : readU64 s₁ with
        | err e => simp only [h₁] at h; cases h
        | ok topo s₂ =>
          simp only [h₁] at h
          cases h₂ : readU64 s₂ with
          | err e => simp only [h₂] at h; cases h
          | ok sh s₃ =>
            simp only [h₂] at h
            cases h₃ : readHash s₃ with
            | err e => simp only [h₃] at h; cases h
            | ok hh s₄ =>
              simp only [h₃] at h
              cases h₄ : readHash s₄ with
              | err e => simp only [h₄] at h; cases h
              | ok mh s₅ =>
                simp only [h₄] at h
                cases h
                simp [StepResponse.topCollectionCard]
    · cases hset : readSetU32 AssetWithData.read AssetWithData.key s₀ with
      | err e => simp only [hset] at h; cases h
      | ok assets s₁ =>
        simp only [hset] at h
        cases hopt : readOptionWith readU64 s₁ with
        | err e => simp only [hopt] at h; cases h
        | ok page s₂ =>
          simp only [hopt] at h
          by_cases hp : page = some 0
          · rw [if_pos hp] at h; cases h
          · rw [if_neg hp] at h
            cases h
            have := readSetU32_ok_card _ _ _ _ _ hb₀ hset
            simp only [StepResponse.topCollectionCard]
            omega
    · cases hset : readSetU32 readKey (fun k => k) s₀ with
      | err e => simp only [hset] at h; cases h
      | ok ks s₁ =>
        simp only [hset] at h
        cases hopt : readOptionWith readU64 s₁ with
        | err e => simp only [hopt] at h; cases h
        | ok page s₂ =>
          simp only [hopt] at h
          by_cases hp : page = some 0
          · rw [if_pos hp] at h; cases h
          · rw [if_neg hp] at h
            cases h
            have := readSetU32_ok_card _ _ _ _ _ hb₀ hset
            simp only [StepResponse.topCollectionCard]
            omega
    · cases hl : readListU32 (readOptionWith readBalanceEntry) s₀ with
      | err e => simp only [hl] at h; cases h
      | ok bals s₁ =>
        simp only [hl] at h
        cases h
        have := readListU32_ok_card _ _ _ _ hb₀ hl
        simp only [StepResponse.topCollectionCard]
        omega
    · cases hl : readListU32 readU64 s₀ with
      | err e => simp only [hl] at h; cases h
      | ok ns s₁ =>
        simp only [hl] at h
        cases h
        have := readListU32_ok_card _ _ _ _ hb₀ hl
        simp only [StepResponse.topCollectionCard]
        omega
    · cases hset : readSetU32 BlockMetadata.read BlockMetadata.key s₀ with
      | err e => simp only [hset] at h; cases h
      | ok bs s₁ =>
        simp only [hset] at h
        cases h
        have := readSetU32_ok_card _ _ _ _ _ hb₀ hset
        simp only [StepResponse.topCollectionCard]
        omega
    · cases h

/-- Witness for claim C4 (amended) on a concrete decodable stream. -/
theorem c4_cardinality_amended_witness :
    StepResponse.topCollectionCard (.Nonces []) ≤ 2 ^ 32 - 1 :=
  c4_cardinality_amended [4, 0, 0, 0, 0] (.Nonces []) [] (by decide)
    (by decide)

/-! Encoded lengths of the individual payload items, used to settle the
size claim. -/

theorem writeU64_length (v : Nat) : (writeU64 v).length = 8 :=
  natToBytesBE_length 8 v

theorem writeU32_length (v : Nat) : (writeU32 v).length = 4 :=
  natToBytesBE_length 4 v

theorem writeOption_u64_length (p : Option Nat) :
    (writeOptionWith writeU64 p).length = optionSizeWith (fun _ => 8) p := by
  cases p with
  | none => rfl
  | some v => simp [writeOptionWith, optionSizeWith, writeU64_length]

theorem blockId_write_length (b : BlockId) (hwf : BlockIdWF b) :
    (BlockId.write b).length = BlockId.size b := by
  have hh : b.hash.length = 32 := hwf.1
  simp [BlockId.write, BlockId.size, writeHash, writeU64_length, hh,
    HASH_SIZE]

theorem writeSetU32_length (wr : α → List Nat) (sz : α → Nat) (l : List α)
    (h : ∀ x ∈ l, (wr x).length = sz x) :
    (writeSetU32 wr l).length = 4 + (l.map sz).sum := by
  simp [writeSetU32, writeU32_length, writeItems_length wr sz l h]

theorem writeListU32_length (wr : α → List Nat) (sz : α → Nat) (l : List α)
    (h : ∀ x ∈ l, (wr x).length = sz x) :
    (writeListU32 wr l).length = 4 + (l.map sz).sum := by
  simp [writeListU32, writeU32_length, writeItems_length wr sz l h]

theorem commonPoint_write_length (c : CommonPoint) (hwf : CommonPointWF c) :
    (CommonPoint.write c).length = CommonPoint.size c := by
  have hh : c.hash.length = 32 := hwf
  simp [CommonPoint.write, CommonPoint.size, writeHash, writeU64_length,
    hh, HASH_SIZE]

theorem writePair_length (p : Hash × Hash) (hwf : PairWF p) :
    (writePair p).length = 2 * HASH_SIZE := by
  have h1 : p.1.length = 32 := hwf.1
  have h2 : p.2.length = 32 := hwf.2
  simp [writePair, h1, h2, HASH_SIZE]

theorem assetWithData_write_length (a : AssetWithData) (hwf : AssetWF a) :
    (AssetWithData.write a).length = AssetWithData.size a := by
  have h1 : a.asset.length = 32 := hwf.1
  have h2 : a.owner.length = 32 := hwf.2.1
  simp [AssetWithData.write, AssetWithData.size, writeHash, writeKey,
    writeU64_length, h1, h2, HASH_SIZE, KEY_SIZE]

theorem writeBalanceType_length (bt : BalanceType) :
    (writeBalanceType bt).length = 1 := by
  cases bt <;> rfl

theorem writeBalanceEntry_length (e : BalanceEntry) (hwf : EntryWF e) :
    (writeBalanceEntry e).length = balanceEntrySize e := by
  obtain ⟨h1, h2⟩ := hwf
  cases ho : e.2.1 with
  | none =>
    simp [writeBalanceEntry, balanceEntrySize, writeBalanceType_length,
      h1, ho, writeOptionWith, optionSizeWith, CIPHERTEXT_SIZE]
  | some c =>
    have hc : c.length = 64 := h2 c ho
    simp [writeBalanceEntry, balanceEntrySize, writeBalanceType_length,
      h1, ho, hc, writeOptionWith, optionSizeWith, CIPHERTEXT_SIZE]

theorem writeOptionEntry_length (x : Option BalanceEntry)
    (hwf : ∀ e, x = some e → EntryWF e) :
    (writeOptionWith writeBalanceEntry x).length =
      optionSizeWith balanceEntrySize x := by
  cases x with
  | none => rfl
  | some e =>
    simp [writeOptionWith, optionSizeWith,
      writeBalanceEntry_length e (hwf e rfl)]
    omega

theorem blockMetadata_write_length (b : BlockMetadata)
    (hwf : BlockMetadataWF b) :
    (BlockMetadata.write b).length = BlockMetadata.size b := by
  have h1 : b.hash.length = 32 := hwf.1
  have h2 : b.merkleHash.length = 32 := hwf.2
  simp [BlockMetadata.write, BlockMetadata.size, writeHash, writeVarUint,
    varUintSize, writeU64_length, h1, h2, HASH_SIZE]
  omega

/-- The one-byte overcount of the declared size relative to the encoding:
present only for ChainInfo requests. -/
def StepRequest.sizeDelta : StepRequest → Nat
  | .ChainInfo _ => 1
  | _ => 0

/-- Claim C3 (amended): the declared size equals the exact encoded length
for every StepResponse, every BlockMetadata, and every StepRequest other
than ChainInfo; for ChainInfo requests the declared size is the encoded
length plus one, because the set's length prefix is counted both by the
set size and by the arm's explicit extra byte. -/
theorem c3_size_amended :
    (∀ r, StepRequestWF r → StepRequest.size r =
      (StepRequest.write r).length + StepRequest.sizeDelta r) ∧
    (∀ r, StepResponseWF r →
      StepResponse.size r = (StepResponse.write r).length) ∧
    (∀ b, BlockMetadataWF b →
      BlockMetadata.size b = (BlockMetadata.write b).length) := by
  refine ⟨?_, ?_, ?_⟩
  · intro r hwf
    cases r with
    | ChainInfo blocks =>
      have hlen := writeItems_length BlockId.write BlockId.size blocks
        (fun b hb => blockId_write_length b (hwf b hb))
      simp [StepRequest.size, StepRequest.write, StepRequest.sizeDelta,
        blockIdSetSize, hlen]
      all_goals omega
    | Merkles c t page =>
      simp [StepRequest.size, StepRequest.write, StepRequest.sizeDelta,
        writeU64_length, writeOption_u64_length]
      all_goals omega
    | Assets m t page =>
      simp [StepRequest.size, StepRequest.write, StepRequest.sizeDelta,
        writeU64_length, writeOption_u64_length]
      all_goals omega
    | Keys m t page =>
      simp [StepRequest.size, StepRequest.write, StepRequest.sizeDelta,
        writeU64_length, writeOption_u64_length]
      all_goals omega
    | Balances t a ks =>
      have ha : a.length = 32 := hwf.1
      have hset := writeSetU32_length writeKey (fun _ => KEY_SIZE) ks
        (fun k hk => hwf.2 k hk)
      simp [StepRequest.size, StepRequest.write, StepRequest.sizeDelta,
        pubKeySetSize, writeU64_length, writeHash, ha, hset, HASH_SIZE]
      all_goals omega
    | Nonces t ks =>
      have hset := writeSetU32_length writeKey (fun _ => KEY_SIZE) ks
        (fun k hk => hwf k hk)
      simp [StepRequest.size, StepRequest.write, StepRequest.sizeDelta,
        pubKeySetSize, writeU64_length, hset]
    | BlocksMetadata t =>
      simp [StepRequest.size, StepRequest.write, StepRequest.sizeDelta,
        writeU64_length]
  · intro r hwf
    cases r with
    | ChainInfo cp topo sh h mh =>
      have hh : h.length = 32 := hwf.2.1
      have hmh : mh.length = 32 := hwf.2.2
      have hcp : (writeOptionWith CommonPoint.write cp).length =
          optionSizeWith CommonPoint.size cp := by
        cases hc : cp with
        | none => rfl
        | some c =>
          simp [writeOptionWith, optionSizeWith,
            commonPoint_write_length c (hwf.1 c hc)]
          omega
      simp [StepResponse.size, StepResponse.write, writeU64_length,
        writeHash, hh, hmh, hcp, HASH_SIZE]
    | Merkles pairs page =>
      have hset := writeSetU32_length writePair (fun _ => 2 * HASH_SIZE)
        pairs (fun p hp => writePair_length p (hwf p hp))
      simp [StepResponse.size, StepResponse.write, hset,
        writeOption_u64_length]
    | Assets assets page =>
      have hset := writeSetU32_length AssetWithData.write
        AssetWithData.size assets
        (fun a ha => assetWithData_write_length a (hwf a ha))
      simp [StepResponse.size, StepResponse.write, hset,
        writeOption_u64_length]
    | Keys ks page =>
      have hset := writeSetU32_length writeKey (fun _ => KEY_SIZE) ks
        (fun k hk => hwf k hk)
      simp [StepResponse.size, StepResponse.write, pubKeySetSize, hset,
        writeOption_u64_length]
    | Balances bals =>
      have hset := writeListU32_length (writeOptionWith writeBalanceEntry)
        (optionSizeWith balanceEntrySize) bals
        (fun x hx => writeOptionEntry_length x (fun e he => hwf e x hx he))
      simp [StepResponse.size, StepResponse.write, hset]
    | Nonces ns =>
      have hset := writeListU32_length writeU64 (fun _ => 8) ns
        (fun v _ => writeU64_length v)
      simp [StepResponse.size, StepResponse.write, hset]
    | BlocksMetadata bs =>
      have hset := writeSetU32_length BlockMetadata.write
        BlockMetadata.size bs
        (fun b hb => blockMetadata_write_length b (hwf b hb))
      simp [StepResponse.size, StepResponse.write, hset]
  · intro b hwf
    exact (blockMetadata_write_length b hwf).symm

/-- Witness for claim C3 (amended) at concrete values of each shape. -/
theorem c3_size_amended_witness :
    StepRequest.size (.BlocksMetadata 5) =
      (StepRequest.write (.BlocksMetadata 5)).length +
        StepRequest.sizeDelta (.BlocksMetadata 5) ∧
    StepRequest.size (.ChainInfo [⟨0, List.replicate 32 0⟩]) =
      (StepRequest.write (.ChainInfo [⟨0, List.replicate 32 0⟩])).length +
        StepRequest.sizeDelta (.ChainInfo [⟨0, List.replicate 32 0⟩]) ∧
    StepResponse.size (.Nonces [7]) =
      (StepResponse.write (.Nonces [7])).length ∧
    BlockMetadata.size ⟨List.replicate 32 0, 0, 0, 0, 0, 0,
        List.replicate 32 0⟩ =
      (BlockMetadata.write ⟨List.replicate 32 0, 0, 0, 0, 0, 0,
        List.replicate 32 0⟩).length :=
  ⟨c3_size_amended.1 _ trivial,
    c3_size_amended.1 _ (by
      intro b hb
      simp [List.mem_singleton] at hb
      subst hb
      exact ⟨rfl, by norm_num⟩),
    c3_size_amended.2.1 _ trivial,
    c3_size_amended.2.2 _ ⟨rfl, rfl⟩⟩

end BootstrapSync

